import Mathlib

/-!
Shallow embedding of `src/modules/gui/src/libs/api/tauri.ts` (ossapp GUI API shim).

The file under verification wires a Tauri `Command` child process to a promise:
`installPackageCommand` spawns `tea-install`, routes stdout/stderr `data` events and the
`close`/`error` events into a shared handler `handleLineOutput`, and settles the promise.
JavaScript promise semantics are modelled explicitly: `resolve`/`reject` after the first
settlement are no-ops on the promise state, but the calls themselves still happen (the
handler has no guard), so the state also counts every `kill`/`resolve`/`reject` call.
-/

namespace Tauri

/-- A payload delivered to `handleLineOutput`: the TS parameter is typed
`string | { code: number }`; the `code` field of a Tauri close payload is
`number | null`, hence `Option Int`. -/
inductive LineEvent
  | str (s : String)
  | completion (code : Option Int)
deriving DecidableEq, Repr

/-- `startsWithList a b` : `b` is an initial segment of `a` (character lists). -/
def startsWithList : List Char → List Char → Bool
  | _, [] => true
  | [], _ :: _ => false
  | c :: cs, p :: ps => c == p && startsWithList cs ps

/-- `containsSubList s pat` : `pat` occurs contiguously inside `s`. -/
def containsSubList : List Char → List Char → Bool
  | [], pat => pat.isEmpty
  | c :: rest, pat => startsWithList (c :: rest) pat || containsSubList rest pat

/-- Model of JavaScript `s.includes(pat)` (substring containment). -/
def jsIncludes (s pat : String) : Bool := containsSubList s.data pat.data

/-- The observable calls the handler can make: `c.kill()`, `resolve(c.pid)`, `reject()`. -/
inductive Action
  | kill
  | resolveCall (pid : Nat)
  | rejectCall
deriving DecidableEq, Repr

/-- The shared line handler (`handleLineOutput`, tauri.ts lines 121–132), as the list of
calls it performs on a payload. The TS code tests, in order:
`typeof line === 'string' && line.includes('installed:')` or
`typeof line !== 'string' && line?.code === 0` → `c.kill(); resolve(c.pid)`;
else `typeof line !== 'string' && line?.code === 1` → `reject()`; else nothing. -/
def handleLineOutput (pid : Nat) (line : LineEvent) : List Action :=
  match line with
  | .str s =>
      if jsIncludes s "installed:" then [.kill, .resolveCall pid] else []
  | .completion code =>
      if code == some 0 then [.kill, .resolveCall pid]
      else if code == some 1 then [.rejectCall]
      else []

/-- A JavaScript promise is pending, resolved with a value, or rejected. -/
inductive PromiseState
  | pending
  | resolved (v : Nat)
  | rejected
deriving DecidableEq, Repr

/-- State of one `installPackageCommand` invocation: the promise plus how many times each
of the kill / resolve / reject paths has been invoked. -/
structure InvState where
  promise : PromiseState
  killCount : Nat
  resolveCount : Nat
  rejectCount : Nat
deriving DecidableEq, Repr

def InvState.init : InvState := ⟨.pending, 0, 0, 0⟩

/-- Effect of one call. Per the JS promise specification, `resolve`/`reject` settle the
promise only when it is still pending; the call is counted regardless. -/
def applyAction (st : InvState) : Action → InvState
  | .kill => { st with killCount := st.killCount + 1 }
  | .resolveCall v =>
      { st with
        resolveCount := st.resolveCount + 1,
        promise := match st.promise with | .pending => .resolved v | p => p }
  | .rejectCall =>
      { st with
        rejectCount := st.rejectCount + 1,
        promise := match st.promise with | .pending => .rejected | p => p }

/-- An external event of the invocation: a stdout/stderr `data` event, the `close` event,
or the `error` event. `close` and `error` payloads may be absent (null/undefined),
modelled by `Option`. -/
inductive Event
  | stdout (line : LineEvent)
  | stderr (line : LineEvent)
  | close (payload : Option LineEvent)
  | error (payload : Option String)
deriving DecidableEq, Repr

/-- Calls triggered by one event (tauri.ts lines 119, 134–143).
`stdout.on('data', handleLineOutput)` and `stderr.on('data', handleLineOutput)` feed the
payload straight to the handler. The `close` listener calls `handleLineOutput(line || '')`:
a falsy payload (null/undefined/`''`) becomes `''`; a `{code}` object is truthy and passes
through — `Option.getD (.str "")` renders exactly this, since `some (.str "")` maps to
`.str ""` either way. For `error`, the listener `reject` was registered first (line 119),
then the second listener calls `handleLineOutput(line || '')` on the string payload. -/
def eventActions (pid : Nat) : Event → List Action
  | .stdout line => handleLineOutput pid line
  | .stderr line => handleLineOutput pid line
  | .close payload => handleLineOutput pid (payload.getD (.str ""))
  | .error payload => .rejectCall :: handleLineOutput pid (.str (payload.getD ""))

/-- Dispatch one event: run its calls in order. -/
def stepEvent (pid : Nat) (st : InvState) (e : Event) : InvState :=
  (eventActions pid e).foldl applyAction st

/-- Run a whole invocation of the event wiring over a sequence of stream events, starting
from the freshly spawned state. `pid` is the spawned child's process id. -/
def runEvents (pid : Nat) (events : List Event) : InvState :=
  events.foldl (stepEvent pid) InvState.init

/-- A Tauri shell `Command`: program name plus argument list. -/
structure Command where
  program : String
  args : List String
deriving DecidableEq, Repr

/-- The command constructed by `installPackageCommand` (tauri.ts line 118):
`new Command('tea-install', [`+${full_name}`, 'true'])`. -/
def teaInstallCommand (full_name : String) : Command :=
  ⟨"tea-install", ["+" ++ full_name, "true"]⟩

/-- Outcome of awaiting a JS promise once it has settled: a normal value, or a thrown
rejection. -/
inductive JsOutcome (α : Type)
  | returns (v : α)
  | throws
deriving DecidableEq, Repr

/-- `installPackageCommand full_name pid events`: the spawned command, and the outcome of
awaiting the returned promise after the given stream events — `none` while the promise is
still pending (the acknowledged no-timeout hang), `some (.returns pid)` on resolution,
`some .throws` on rejection. -/
def installPackageCommand (full_name : String) (pid : Nat) (events : List Event) :
    Command × Option (JsOutcome Nat) :=
  (teaInstallCommand full_name,
    match (runEvents pid events).promise with
    | .pending => none
    | .resolved v => some (.returns v)
    | .rejected => some .throws)

/-- `installPackage` (tauri.ts lines 108–114): `try { await installPackageCommand(...) }
catch (error) { console.error(error) }`. Result: the function's own outcome paired with
whether `console.error` ran; `none` when the awaited promise never settles. -/
def installPackage (full_name : String) (pid : Nat) (events : List Event) :
    Option (JsOutcome Unit × Bool) :=
  (installPackageCommand full_name pid events).2.map fun r =>
    match r with
    | .returns _ => (.returns (), false)
    | .throws => (.returns (), true)

/-- The session user, as consumed here: only `developer_id` is read. -/
structure User where
  developer_id : String
deriving DecidableEq, Repr

/-- A session from the auth store: `device_id` and `user` may be absent (the code guards
them with `?.`), `key` is a string. -/
structure Session where
  device_id : Option String
  key : String
  user : Option User
deriving DecidableEq, Repr

/-- `Math.round(unixMs / 1000)` for a nonnegative integer `unixMs`: round half up. -/
def jsMathRoundDiv1000 (unixMs : Nat) : Nat := (unixMs + 500) / 1000

/-- JS `n.toString(16)`: lowercase hexadecimal rendering of a nonnegative integer. -/
def toHex (n : Nat) : String := String.mk (Nat.toDigits 16 n)

/-- Modelled from the spec: `bcrypt.hashSync(data, 10)` comes from the external `bcryptjs`
library (not under `src/`). Per its documentation, a numeric second argument makes each
call draw a fresh random salt, and the result is `"$2a$" + cost + "$" + salt + digest`,
with the salt embedded verbatim before the digest of `(data, salt)`. The salt is made an
explicit argument here; the cryptographic digest itself is irrelevant to the claims and is
represented only through its dependence on `data` and `salt`. -/
def bcryptHashSync (data : String) (rounds : Nat) (salt : String) : String :=
  "$2a$" ++ toString rounds ++ "$" ++ salt ++ "$" ++ data

/-- The header record built by `getHeaders` / used by `get`. `none` models a field that is
absent or `undefined`. -/
structure Headers where
  authorization : String
  teaTs : Option String
  teaUid : Option String
  teaGuiId : Option String
deriving DecidableEq, Repr

/-- `getHeaders` (tauri.ts lines 31–45). Ambient effects are explicit inputs: `unixMs` is
`new Date().getTime()`, `salt` is the random salt drawn inside `bcrypt.hashSync`.
`deviceId` is `session.device_id?.split('-')[0]`; `[a, b, c, d].join('')` renders an
`undefined` element as `''`. -/
def getHeaders (unixMs : Nat) (salt : String) (path : String) (session : Session) :
    Headers :=
  let unixHexSecs := toHex (jsMathRoundDiv1000 unixMs)
  let deviceId := session.device_id.map (fun s => (s.splitOn "-").headD "")
  let preHash := unixHexSecs ++ session.key ++ deviceId.getD "" ++ path
  { authorization := bcryptHashSync preHash 10 salt
    teaTs := some (toString unixMs)
    teaUid := session.user.map (fun u => u.developer_id)
    teaGuiId := session.device_id }

/-- The unauthenticated header set of `get`: `{ Authorization: 'public ' }`. -/
def publicHeaders : Headers := ⟨"public ", none, none, none⟩

/-- JS truthiness of an optional string: `undefined`/`null`/`''` are falsy. -/
def jsTruthyStr : Option String → Bool
  | none => false
  | some s => s != ""

/-- The header selection performed by `get` (tauri.ts lines 52–55): signed headers when
`session?.device_id && session?.user` is truthy, else `{ Authorization: 'public ' }`.
The signed path hashes over `GET/` followed by the request path. -/
def getAuthHeaders (session : Option Session) (unixMs : Nat) (salt : String)
    (path : String) : Headers :=
  match session with
  | some s =>
      if jsTruthyStr s.device_id && s.user.isSome then
        getHeaders unixMs salt ("GET/" ++ path) s
      else publicHeaders
  | none => publicHeaders

/-- A remote catalog package, from the external `@tea/ui/types` (not under `src/`): the
fields this file never touches are represented by this record; `getPackages` spreads them
unchanged. -/
structure Package where
  full_name : String
  name : String
  desc : String
  homepage : String
  version : String
deriving DecidableEq, Repr

/-- A locally installed package as reported by `getInstalledPackages` (external
`$libs/teaDir`): only `full_name` and `version` are read here. -/
structure InstalledPackage where
  full_name : String
  version : String
deriving DecidableEq, Repr

/-- The two package states this file assigns (from the external `PackageStates` enum). -/
inductive PackageStates
  | AVAILABLE
  | INSTALLED
deriving DecidableEq, Repr

/-- A catalog package decorated for the GUI: `{ ...pkg, state, installed_version }`; the
`pkg` field holds the spread copy of the remote package. -/
structure GUIPackage where
  pkg : Package
  state : PackageStates
  installed_version : String
deriving DecidableEq, Repr

/-- `getPackages` (tauri.ts lines 78–92), with the two fetches (remote catalog, local
install dir) as explicit inputs: each remote package is spread unchanged and decorated
with `state` and `installed_version` from the first installed package of equal
`full_name`, if any. -/
def getPackages (packages : List Package) (installedPackages : List InstalledPackage) :
    List GUIPackage :=
  packages.map fun pkg =>
    let found := installedPackages.find? (fun p => p.full_name == pkg.full_name)
    { pkg := pkg
      state := if found.isSome then .INSTALLED else .AVAILABLE
      installed_version := match found with | some f => f.version | none => "" }

/-! ### Helper lemmas about the event machine -/

/-- The shared handler only ever performs one of three call sequences: nothing,
kill-then-resolve, or a lone reject. -/
lemma handleLineOutput_cases (pid : Nat) (line : LineEvent) :
    handleLineOutput pid line = [] ∨
    handleLineOutput pid line = [.kill, .resolveCall pid] ∨
    handleLineOutput pid line = [.rejectCall] := by
  cases line with
  | str s =>
      by_cases hs : jsIncludes s "installed:" = true
      · exact Or.inr (Or.inl (by simp [handleLineOutput, hs]))
      · exact Or.inl (by simp [handleLineOutput, hs])
  | completion code =>
      by_cases h0 : code == some 0
      · exact Or.inr (Or.inl (by simp [handleLineOutput, h0]))
      · by_cases h1 : code == some 1
        · exact Or.inr (Or.inr (by simp [handleLineOutput, h0, h1]))
        · exact Or.inl (by simp [handleLineOutput, h0, h1])

/-- A settled promise is never changed by a further call. -/
lemma applyAction_promise_of_settled (st : InvState) (a : Action)
    (h : st.promise ≠ .pending) : (applyAction st a).promise = st.promise := by
  cases a with
  | kill => rfl
  | resolveCall v => cases hp : st.promise <;> simp_all [applyAction]
  | rejectCall => cases hp : st.promise <;> simp_all [applyAction]

/-- A settled promise survives any sequence of calls. -/
lemma foldl_promise_of_settled (acts : List Action) (st : InvState)
    (h : st.promise ≠ .pending) : (acts.foldl applyAction st).promise = st.promise := by
  induction acts generalizing st with
  | nil => rfl
  | cons a l ih =>
      rw [List.foldl_cons]
      have ha := applyAction_promise_of_settled st a h
      rw [ih (applyAction st a) (by rw [ha]; exact h), ha]

/-- A settled promise survives any further event. -/
lemma stepEvent_promise_of_settled (pid : Nat) (st : InvState) (e : Event)
    (h : st.promise ≠ .pending) : (stepEvent pid st e).promise = st.promise :=
  foldl_promise_of_settled (eventActions pid e) st h

/-- A settled promise survives any further event sequence. -/
lemma foldlEvents_promise_of_settled (pid : Nat) (l : List Event) :
    ∀ st : InvState, st.promise ≠ .pending →
      (l.foldl (stepEvent pid) st).promise = st.promise := by
  induction l with
  | nil => intro st _; rfl
  | cons e es ih =>
      intro st h
      have ha := stepEvent_promise_of_settled pid st e h
      rw [List.foldl_cons, ih (stepEvent pid st e) (by rw [ha]; exact h), ha]

/-- After one of the three call shapes, a resolved promise implies at least one kill call
(given this held before). -/
lemma actsShape_killInv (pid : Nat) (st : InvState) (acts : List Action)
    (hacts : acts = [] ∨ acts = [.kill, .resolveCall pid] ∨ acts = [.rejectCall])
    (h : ∀ v, st.promise = .resolved v → 1 ≤ st.killCount) :
    ∀ v, (acts.foldl applyAction st).promise = .resolved v →
      1 ≤ (acts.foldl applyAction st).killCount := by
  rcases hacts with rfl | rfl | rfl
  · simpa using h
  · intro v _
    simp [List.foldl, applyAction]
  · intro v hv
    cases hp : st.promise with
    | pending => simp [List.foldl, applyAction, hp] at hv
    | resolved w =>
        have hk := h w hp
        simpa [List.foldl, applyAction, hp] using hk
    | rejected => simp [List.foldl, applyAction, hp] at hv

/-- A lone reject call preserves the kill-before-resolve invariant. -/
lemma rejectCall_killInv (st : InvState)
    (h : ∀ v, st.promise = .resolved v → 1 ≤ st.killCount) :
    ∀ v, (applyAction st .rejectCall).promise = .resolved v →
      1 ≤ (applyAction st .rejectCall).killCount := by
  intro v hv
  cases hp : st.promise with
  | pending => simp [applyAction, hp] at hv
  | resolved w =>
      have hk := h w hp
      simpa [applyAction, hp] using hk
  | rejected => simp [applyAction, hp] at hv

/-- Every event preserves the kill-before-resolve invariant. -/
lemma stepEvent_killInv (pid : Nat) (st : InvState) (e : Event)
    (h : ∀ v, st.promise = .resolved v → 1 ≤ st.killCount) :
    ∀ v, (stepEvent pid st e).promise = .resolved v →
      1 ≤ (stepEvent pid st e).killCount := by
  cases e with
  | stdout line => exact actsShape_killInv pid st _ (handleLineOutput_cases pid line) h
  | stderr line => exact actsShape_killInv pid st _ (handleLineOutput_cases pid line) h
  | close payload =>
      exact actsShape_killInv pid st _ (handleLineOutput_cases pid (payload.getD (.str ""))) h
  | error payload =>
      exact actsShape_killInv pid (applyAction st .rejectCall) _
        (handleLineOutput_cases pid (.str (payload.getD "")))
        (rejectCall_killInv st h)

/-- Over a whole run: whenever the promise is resolved, the kill path has run. -/
lemma runEvents_killInv (pid : Nat) (events : List Event) :
    ∀ v, (runEvents pid events).promise = .resolved v →
      1 ≤ (runEvents pid events).killCount := by
  suffices hgen : ∀ st : InvState, (∀ v, st.promise = .resolved v → 1 ≤ st.killCount) →
      ∀ v, (events.foldl (stepEvent pid) st).promise = .resolved v →
        1 ≤ (events.foldl (stepEvent pid) st).killCount by
    exact hgen InvState.init (by intro v hv; simp [InvState.init] at hv)
  induction events with
  | nil => intro st h; simpa using h
  | cons e es ih =>
      intro st h
      exact ih (stepEvent pid st e) (stepEvent_killInv pid st e h)

/-! ### Claim theorems -/

/-- C1 (counterexample): a completion event with exit code 1 rejects the invocation while
the kill path never ran — the process is not terminated before the failure resolution, so
the claim that both outcomes kill the process first is false on the code. -/
theorem code_one_rejects_without_kill :
    (runEvents 7 [.close (some (.completion (some 1)))]).promise = .rejected ∧
    (runEvents 7 [.close (some (.completion (some 1)))]).killCount = 0 := by
  decide

/-- C1 (amended): the child process is killed before the *success* resolution — whenever
the promise is resolved, at least one kill call has happened — while the code-1 failure
path rejects without any kill (the process has already exited): from a pending state, a
close event with code 1 only rejects and increments the reject counter. -/
theorem process_killed_before_success_resolution (pid : Nat) (events : List Event) :
    (∀ v, (runEvents pid events).promise = .resolved v →
      1 ≤ (runEvents pid events).killCount) ∧
    (∀ st : InvState, st.promise = .pending →
      stepEvent pid st (.close (some (.completion (some 1)))) =
        { st with promise := .rejected, rejectCount := st.rejectCount + 1 }) := by
  refine ⟨runEvents_killInv pid events, ?_⟩
  intro st h
  cases st
  simp_all [stepEvent, eventActions, handleLineOutput, applyAction]

/-- C1 witness for the amended theorem. -/
theorem process_killed_before_success_resolution_witness :
    (runEvents 7 [.stdout (.str "installed: pantry/foo")]).promise = .resolved 7 ∧
    1 ≤ (runEvents 7 [.stdout (.str "installed: pantry/foo")]).killCount ∧
    InvState.init.promise = .pending ∧
    stepEvent 7 InvState.init (.close (some (.completion (some 1)))) =
      { InvState.init with promise := .rejected, rejectCount := 1 } := by
  refine ⟨by decide, ?_, rfl, ?_⟩
  · exact (process_killed_before_success_resolution 7
      [.stdout (.str "installed: pantry/foo")]).1 7 (by decide)
  · exact (process_killed_before_success_resolution 7 []).2 InvState.init rfl

/-- C2: the shared line handler resolves by exactly the claimed predicate. From a pending
state: a string containing `"installed:"` resolves success with the child pid; a
completion payload with code 0 resolves success with the pid; code 1 rejects; every other
payload leaves the promise pending. -/
theorem handleLineOutput_resolution (pid : Nat) (st : InvState) (line : LineEvent)
    (h : st.promise = .pending) :
    ((handleLineOutput pid line).foldl applyAction st).promise =
      match line with
      | .str s => if jsIncludes s "installed:" then .resolved pid else .pending
      | .completion code =>
          if code = some 0 then .resolved pid
          else if code = some 1 then .rejected
          else .pending := by
  cases line with
  | str s =>
      by_cases hs : jsIncludes s "installed:" = true
      · simp [handleLineOutput, hs, applyAction, h]
      · simp [handleLineOutput, hs, h]
  | completion code =>
      by_cases h0 : code = some 0
      · simp [handleLineOutput, h0, applyAction, h]
      · by_cases h1 : code = some 1
        · simp [handleLineOutput, h0, h1, applyAction, h]
        · simp [handleLineOutput, h0, h1, h]

/-- C2 witness. -/
theorem handleLineOutput_resolution_witness :
    InvState.init.promise = .pending ∧
    ((handleLineOutput 5 (.str "installed: pantry/foo")).foldl applyAction
      InvState.init).promise = .resolved 5 := by
  refine ⟨rfl, ?_⟩
  have h := handleLineOutput_resolution 5 InvState.init (.str "installed: pantry/foo") rfl
  rw [h]
  decide

/-- C3 (counterexample): two stdout lines each containing `"installed:"` invoke the
kill/resolve path twice — there is no once-guard in the handler — even though the promise
itself only records the first resolution. -/
theorem double_installed_lines_double_kill :
    (runEvents 7 [.stdout (.str "installed: a"), .stdout (.str "installed: b")]).killCount = 2 ∧
    (runEvents 7 [.stdout (.str "installed: a"), .stdout (.str "installed: b")]).resolveCount = 2 ∧
    (runEvents 7 [.stdout (.str "installed: a"), .stdout (.str "installed: b")]).promise = .resolved 7 := by
  decide

/-- C3 (amended): the *promise resolution* happens at most once — once a qualifying event
has settled the promise, no later event sequence can change the recorded outcome (JS
promises ignore further resolve/reject) — but later qualifying events are not ignored by
the handler: they invoke kill/resolve/reject again, as the counterexample shows. -/
theorem promise_settled_at_most_once (pid : Nat) (events extra : List Event)
    (h : (runEvents pid events).promise ≠ .pending) :
    (runEvents pid (events ++ extra)).promise = (runEvents pid events).promise := by
  have happ : runEvents pid (events ++ extra) =
      extra.foldl (stepEvent pid) (runEvents pid events) := by
    simp [runEvents, List.foldl_append]
  rw [happ]
  exact foldlEvents_promise_of_settled pid extra (runEvents pid events) h

/-- C3 witness for the amended theorem. -/
theorem promise_settled_at_most_once_witness :
    (runEvents 7 [.stdout (.str "installed: a")]).promise ≠ .pending ∧
    (runEvents 7 ([.stdout (.str "installed: a")] ++
        [.close (some (.completion (some 1)))])).promise =
      (runEvents 7 [.stdout (.str "installed: a")]).promise := by
  refine ⟨by decide, ?_⟩
  exact promise_settled_at_most_once 7 [.stdout (.str "installed: a")]
    [.close (some (.completion (some 1)))] (by decide)

/-- C4 (counterexample): two runs of `getHeaders` with identical timestamp, session key,
device id and path produce different Authorization values, because `bcrypt.hashSync(_, 10)`
draws a fresh random salt per call (here two distinct salts). The signer is not
deterministic in the claimed inputs alone. -/
theorem getHeaders_two_runs_differ :
    (getHeaders 1666000000000 "aSaltValue" "GET/packages"
      ⟨some "dev-1", "k", some ⟨"u"⟩⟩).authorization ≠
    (getHeaders 1666000000000 "bSaltValue" "GET/packages"
      ⟨some "dev-1", "k", some ⟨"u"⟩⟩).authorization := by
  decide

/-- C4 (amended): the Authorization value is deterministic in (timestamp, bcrypt salt,
session key, device id, path): two runs agreeing on these agree on the value even if the
rest of the session (the user) differs. Only the per-call random salt breaks determinism
across runs. -/
theorem getHeaders_deterministic_given_salt (unixMs : Nat) (salt path : String)
    (s s' : Session) (hk : s.key = s'.key) (hd : s.device_id = s'.device_id) :
    (getHeaders unixMs salt path s).authorization =
      (getHeaders unixMs salt path s').authorization := by
  simp [getHeaders, hk, hd]

/-- C4 witness. -/
theorem getHeaders_deterministic_given_salt_witness :
    (⟨some "dev-1", "k", some ⟨"u1"⟩⟩ : Session).key = (⟨some "dev-1", "k", none⟩ : Session).key ∧
    (⟨some "dev-1", "k", some ⟨"u1"⟩⟩ : Session).device_id = (⟨some "dev-1", "k", none⟩ : Session).device_id ∧
    (getHeaders 1666000000000 "aSaltValue" "GET/packages" ⟨some "dev-1", "k", some ⟨"u1"⟩⟩).authorization =
      (getHeaders 1666000000000 "aSaltValue" "GET/packages" ⟨some "dev-1", "k", none⟩).authorization :=
  ⟨rfl, rfl, getHeaders_deterministic_given_salt 1666000000000 "aSaltValue" "GET/packages"
    ⟨some "dev-1", "k", some ⟨"u1"⟩⟩ ⟨some "dev-1", "k", none⟩ rfl rfl⟩

/-- C5: whenever the underlying install command settles — any outcome, including a
rejection — `installPackage` returns normally to its caller; it never re-throws, and a
rejection is caught and logged (`console.error`). -/
theorem installPackage_never_throws (full_name : String) (pid : Nat) (events : List Event)
    (h : (installPackageCommand full_name pid events).2.isSome = true) :
    ∃ logged : Bool,
      installPackage full_name pid events = some (.returns (), logged) ∧
      ((installPackageCommand full_name pid events).2 = some .throws → logged = true) := by
  rcases ho : (installPackageCommand full_name pid events).2 with _ | r
  · rw [ho] at h
    simp at h
  · cases r with
    | returns v =>
        refine ⟨false, ?_, ?_⟩
        · simp [installPackage, ho]
        · intro hcontra
          simp [ho] at hcontra
    | throws =>
        exact ⟨true, by simp [installPackage, ho], fun _ => rfl⟩

/-- C5 witness: a code-1 rejection is caught and logged, and `installPackage` still
returns normally. -/
theorem installPackage_never_throws_witness :
    (installPackageCommand "pantry/bar" 7 [.close (some (.completion (some 1)))]).2.isSome = true ∧
    installPackage "pantry/bar" 7 [.close (some (.completion (some 1)))] =
      some (.returns (), true) := by
  refine ⟨by decide, ?_⟩
  obtain ⟨logged, h1, h2⟩ := installPackage_never_throws "pantry/bar" 7
    [.close (some (.completion (some 1)))] (by decide)
  have hl : logged = true := h2 (by decide)
  rw [hl] at h1
  exact h1

/-- C6: for every fully-qualified name, the invoker spawns the local installer
`tea-install` with exactly the argument list `["+" ++ name, "true"]`. -/
theorem installPackageCommand_spawn_args (full_name : String) (pid : Nat)
    (events : List Event) :
    (installPackageCommand full_name pid events).1.args = ["+" ++ full_name, "true"] ∧
    (installPackageCommand full_name pid events).1.program = "tea-install" :=
  ⟨rfl, rfl⟩

/-- C7: a hard spawn/launch error rejects the invocation directly: from a pending state,
the `error` event leaves the promise rejected whatever its payload — the `reject` listener
(registered first) settles the promise, and any resolve attempt from the re-entered line
handler is a no-op on the settled promise. The machine has no retry action. -/
theorem spawn_error_rejects (pid : Nat) (st : InvState) (payload : Option String)
    (h : st.promise = .pending) :
    (stepEvent pid st (.error payload)).promise = .rejected := by
  have h1 : (applyAction st .rejectCall).promise = .rejected := by
    simp [applyAction, h]
  have h2 := foldl_promise_of_settled (handleLineOutput pid (.str (payload.getD "")))
    (applyAction st .rejectCall) (by rw [h1]; simp)
  calc (stepEvent pid st (.error payload)).promise
      = ((handleLineOutput pid (.str (payload.getD ""))).foldl applyAction
          (applyAction st .rejectCall)).promise := rfl
    _ = (applyAction st .rejectCall).promise := h2
    _ = .rejected := h1

/-- C7 witness. -/
theorem spawn_error_rejects_witness :
    InvState.init.promise = .pending ∧
    (stepEvent 7 InvState.init (.error (some "failed to launch"))).promise = .rejected :=
  ⟨rfl, spawn_error_rejects 7 InvState.init (some "failed to launch") rfl⟩

/-- C8: a close/error payload that is null/undefined/empty re-enters the shared handler as
the empty string, which satisfies neither the success nor the failure predicate: the
handler performs no call at all, and a close event with such a payload leaves the whole
invocation state untouched. -/
theorem empty_payload_no_resolution (pid : Nat) (st : InvState)
    (payload : Option LineEvent)
    (h : payload = none ∨ payload = some (.str "")) :
    payload.getD (.str "") = .str "" ∧
    handleLineOutput pid (.str "") = [] ∧
    stepEvent pid st (.close payload) = st := by
  rcases h with rfl | rfl <;> exact ⟨rfl, rfl, rfl⟩

/-- C8 witness. -/
theorem empty_payload_no_resolution_witness :
    ((none : Option LineEvent) = none ∨ (none : Option LineEvent) = some (.str "")) ∧
    stepEvent 7 InvState.init (.close none) = InvState.init :=
  ⟨Or.inl rfl, (empty_payload_no_resolution 7 InvState.init none (Or.inl rfl)).2.2⟩

/-- C9: the `get` helper sends the literal header `Authorization: 'public '` (trailing
space, no signed `tea-ts`/`tea-uid`/`tea-gui_id` fields) whenever the session is absent or
lacks a truthy `device_id` or a `user`; otherwise it sends the signed header set produced
by `getHeaders` over `GET/` + path. -/
theorem get_header_selection (session : Option Session) (unixMs : Nat)
    (salt path : String) :
    ((session = none ∨
        ∃ s, session = some s ∧ (jsTruthyStr s.device_id = false ∨ s.user = none)) →
      getAuthHeaders session unixMs salt path = ⟨"public ", none, none, none⟩) ∧
    (∀ s, session = some s → jsTruthyStr s.device_id = true → s.user.isSome = true →
      getAuthHeaders session unixMs salt path =
        getHeaders unixMs salt ("GET/" ++ path) s) := by
  constructor
  · rintro (rfl | ⟨s, rfl, hcond⟩)
    · rfl
    · rcases hcond with hd | hu
      · simp [getAuthHeaders, hd, publicHeaders]
      · simp [getAuthHeaders, hu, publicHeaders]
  · rintro s rfl hd hu
    simp [getAuthHeaders, hd, hu]

/-- C9 witness: an absent session gets the public header; a full session gets the signed
set. -/
theorem get_header_selection_witness :
    getAuthHeaders none 0 "aSaltValue" "packages" = ⟨"public ", none, none, none⟩ ∧
    getAuthHeaders (some ⟨some "dev-1", "k", some ⟨"u"⟩⟩) 0 "aSaltValue" "packages" =
      getHeaders 0 "aSaltValue" "GET/packages" ⟨some "dev-1", "k", some ⟨"u"⟩⟩ := by
  refine ⟨(get_header_selection none 0 "aSaltValue" "packages").1 (Or.inl rfl), ?_⟩
  exact (get_header_selection (some ⟨some "dev-1", "k", some ⟨"u"⟩⟩) 0
    "aSaltValue" "packages").2 ⟨some "dev-1", "k", some ⟨"u"⟩⟩ rfl (by decide) rfl

/-- C10: `getPackages` decorates each remote package in place: the list keeps its length;
the spread copy of the remote package is unchanged; `state` is `INSTALLED` iff some
installed package has an equal `full_name` (and `AVAILABLE` otherwise);
`installed_version` is the version of the first such installed package when one exists and
`""` otherwise. -/
theorem getPackages_decoration (packages : List Package)
    (installed : List InstalledPackage) (i : Nat) (g : GUIPackage) (pkg : Package)
    (hg : (getPackages packages installed)[i]? = some g)
    (hp : packages[i]? = some pkg) :
    (getPackages packages installed).length = packages.length ∧
    g.pkg = pkg ∧
    (g.state = .INSTALLED ↔ ∃ p ∈ installed, p.full_name = pkg.full_name) ∧
    (g.state = .AVAILABLE ↔ ¬ ∃ p ∈ installed, p.full_name = pkg.full_name) ∧
    (∀ p, installed.find? (fun q => q.full_name == pkg.full_name) = some p →
      g.installed_version = p.version) ∧
    ((¬ ∃ p ∈ installed, p.full_name = pkg.full_name) → g.installed_version = "") := by
  have hlen : (getPackages packages installed).length = packages.length := by
    simp [getPackages]
  have hmap : (getPackages packages installed)[i]? = packages[i]?.map (fun pkg =>
      let found := installed.find? (fun p => p.full_name == pkg.full_name)
      { pkg := pkg
        state := if found.isSome then .INSTALLED else .AVAILABLE
        installed_version := match found with | some f => f.version | none => "" }) := by
    simp [getPackages, List.getElem?_map]
  rw [hmap, hp] at hg
  simp only [Option.map_some', Option.some.injEq] at hg
  have hiff : (installed.find? (fun p => p.full_name == pkg.full_name)).isSome = true ↔
      ∃ p ∈ installed, p.full_name = pkg.full_name := by
    rw [List.find?_isSome]
    constructor
    · rintro ⟨p, hpmem, hbeq⟩
      exact ⟨p, hpmem, by simpa using hbeq⟩
    · rintro ⟨p, hpmem, heq⟩
      exact ⟨p, hpmem, by simpa using heq⟩
  refine ⟨hlen, ?_, ?_, ?_, ?_, ?_⟩
  · rw [← hg]
  · rw [← hg]
    rcases hf : (installed.find? (fun p => p.full_name == pkg.full_name)) with _ | p
    · have : ¬ ∃ p ∈ installed, p.full_name = pkg.full_name := by
        rw [← hiff, hf]
        simp
      simp [hf, this]
    · have : ∃ p ∈ installed, p.full_name = pkg.full_name := by
        rw [← hiff, hf]
        simp
      simp [hf, this]
  · rw [← hg]
    rcases hf : (installed.find? (fun p => p.full_name == pkg.full_name)) with _ | p
    · have : ¬ ∃ p ∈ installed, p.full_name = pkg.full_name := by
        rw [← hiff, hf]
        simp
      simp [hf, this]
    · have : ∃ p ∈ installed, p.full_name = pkg.full_name := by
        rw [← hiff, hf]
        simp
      simp [hf, this]
  · intro p hfind
    rw [← hg]
    simp [hfind]
  · intro hnone
    rw [← hg]
    have hf : installed.find? (fun p => p.full_name == pkg.full_name) = none := by
      rcases hopt : installed.find? (fun p => p.full_name == pkg.full_name) with _ | p
      · exact hopt
      · exact absurd (hiff.mp (by rw [hopt]; rfl)) hnone
    simp [hf]

/-- C10 witness: one remote package, one matching installed package. -/
theorem getPackages_decoration_witness :
    ((getPackages [⟨"pantry/foo", "foo", "d", "h", "2.0.0"⟩] [⟨"pantry/foo", "1.2.3"⟩])[0]? =
        some ⟨⟨"pantry/foo", "foo", "d", "h", "2.0.0"⟩, .INSTALLED, "1.2.3"⟩) ∧
    (([⟨"pantry/foo", "foo", "d", "h", "2.0.0"⟩] : List Package)[0]? =
        some ⟨"pantry/foo", "foo", "d", "h", "2.0.0"⟩) ∧
    ((⟨⟨"pantry/foo", "foo", "d", "h", "2.0.0"⟩, .INSTALLED, "1.2.3"⟩ : GUIPackage).state = .INSTALLED ↔
      ∃ p ∈ [(⟨"pantry/foo", "1.2.3"⟩ : InstalledPackage)],
        p.full_name = (⟨"pantry/foo", "foo", "d", "h", "2.0.0"⟩ : Package).full_name) := by
  refine ⟨by decide, by decide, ?_⟩
  exact (getPackages_decoration [⟨"pantry/foo", "foo", "d", "h", "2.0.0"⟩]
    [⟨"pantry/foo", "1.2.3"⟩] 0
    ⟨⟨"pantry/foo", "foo", "d", "h", "2.0.0"⟩, .INSTALLED, "1.2.3"⟩
    ⟨"pantry/foo", "foo", "d", "h", "2.0.0"⟩ (by decide) (by decide)).2.2.1

end Tauri
